import Mathlib

/-!
Verification of the ICS20 fungible-token-transfer denomination model and
receive-side handler (`modules/src/applications/transfer/denom.rs` and
`modules/src/applications/transfer/relay_application_logic/on_recv_packet.rs`).

Rust `String`s are embedded as `List Char`; `str::split('/')` becomes
`splitSlash`, joining with `"/"` becomes `joinSlash`.
-/

/-- Embeds Rust's `s.split('/')` on strings: splitting the empty string
yields one empty piece, adjacent separators yield empty pieces. -/
def splitSlash : List Char → List (List Char)
  | [] => [[]]
  | a :: rest =>
    match splitSlash rest with
    | [] => [[]]
    | t :: ts => if a = '/' then [] :: t :: ts else (a :: t) :: ts

/-- Embeds joining a list of string pieces with the separator `"/"`
(Rust's `Vec::join("/")`); the empty list joins to the empty string. -/
def joinSlash : List (List Char) → List Char
  | [] => []
  | [t] => t
  | t :: ts => t ++ '/' :: joinSlash ts

/-- Embeds Rust's `s.trim().is_empty()`: the string is empty or all
whitespace. -/
def blankStr (s : List Char) : Bool :=
  s.all fun c => c.isWhitespace

deriving instance DecidableEq for Except

/-- The error taxonomy of the transfer application
(`applications/transfer/error.rs` constructors used by the embedded code;
external error payloads are dropped, positions and lengths are kept). -/
inductive Ics20Error
  | emptyBaseDenom
  | invalidTraceLength (len : Nat)
  | invalidTracePortId (pos : Nat)
  | invalidTraceChannelId (pos : Nat)
  | invalidAmount
  | receiveDisabled
  | parseAccountFailure
  | unauthorisedReceive (receiver : List Char)
  | channelEscrowLookupFailure
deriving DecidableEq, Repr

/-- Base denomination type: a validated non-blank string
(`denom.rs`, `struct BaseDenom(String)`). -/
structure BaseDenom where
  val : List Char
deriving DecidableEq, Repr

/-- Embeds `BaseDenom::from_str`: fails with `empty_base_denom` when the
input trims to empty, otherwise stores the string verbatim. -/
def BaseDenom.fromStr (s : List Char) : Except Ics20Error BaseDenom :=
  if blankStr s then .error .emptyBaseDenom else .ok ⟨s⟩

/-- Characters admitted in a port/channel identifier (ICS-024 charset:
alphanumerics and `.`, `_`, `+`, `-`, `#`, `[`, `]`, `<`, `>`). -/
def validIdentChar (c : Char) : Bool :=
  c.isAlphanum || c = '.' || c = '_' || c = '+' || c = '-' ||
    c = '#' || c = '[' || c = ']' || c = '<' || c = '>'

/-- Modelled from the spec: identifier validation for port/channel ids.
The repository's `core/ics24_host/identifier.rs` is not among the staged
files; the spec (sections 3 and 6) makes identifiers "opaque validated
identifiers (charset/length rules owned externally)", "opaque beyond
equality and text rendering". We model validation as an ICS-024-style
charset check with length bounds, and a validated identifier as the
accepted string held verbatim, so rendering returns the input unchanged. -/
def validIdentifier (lo hi : Nat) (s : List Char) : Bool :=
  decide (lo ≤ s.length) && decide (s.length ≤ hi) && s.all validIdentChar

/-- Port identifier, an opaque validated string (modelled from the spec,
see `validIdentifier`). -/
structure PortId where
  val : List Char
deriving DecidableEq, Repr

/-- Modelled from the spec: `PortId::from_str` validates the charset/length
rules and keeps the accepted string verbatim. -/
def PortId.fromStr (s : List Char) : Option PortId :=
  if validIdentifier 2 64 s then some ⟨s⟩ else none

/-- Channel identifier, an opaque validated string (modelled from the spec,
see `validIdentifier`). -/
structure ChannelId where
  val : List Char
deriving DecidableEq, Repr

/-- Modelled from the spec: `ChannelId::from_str` validates the
charset/length rules and keeps the accepted string verbatim. -/
def ChannelId.fromStr (s : List Char) : Option ChannelId :=
  if validIdentifier 8 64 s then some ⟨s⟩ else none

/-- One hop identity: (port identifier, channel identifier)
(`denom.rs`, `struct TracePrefix`). -/
structure TracePrefix where
  portId : PortId
  channelId : ChannelId
deriving DecidableEq, Repr

/-- Embeds `TracePrefix::new`. -/
def TracePrefix.new (portId : PortId) (channelId : ChannelId) : TracePrefix :=
  ⟨portId, channelId⟩

/-- Embeds `TracePrefix`'s `Display`: `"port/channel"`. -/
def TracePrefix.toStr (t : TracePrefix) : List Char :=
  t.portId.val ++ '/' :: t.channelId.val

/-- A full trace path modelled as a collection of `TracePrefix`s
(`denom.rs`, `struct TracePath(Vec<TracePrefix>)`). As in the source, the
internal order is reversed: the last element is the current (leftmost in
text) hop. -/
structure TracePath where
  hops : List TracePrefix
deriving DecidableEq, Repr

/-- Embeds `TracePath::starts_with`: true iff the last stored element (the
current hop) equals the given prefix; `None.unwrap_or(false)` on empty. -/
def TracePath.startsWith (p : TracePath) (pfx : TracePrefix) : Bool :=
  (p.hops.getLast?.map fun q => q == pfx).getD false

/-- Embeds `TracePath::remove_prefix`: pops the current hop on a match,
otherwise does nothing. -/
def TracePath.removePrefix (p : TracePath) (pfx : TracePrefix) : TracePath :=
  if p.startsWith pfx then ⟨p.hops.dropLast⟩ else p

/-- Embeds `TracePath::add_prefix`: pushes the prefix as the new current
hop. -/
def TracePath.addPrefix (p : TracePath) (pfx : TracePrefix) : TracePath :=
  ⟨p.hops ++ [pfx]⟩

/-- Embeds `TracePath::is_empty`. -/
def TracePath.isEmpty (p : TracePath) : Bool :=
  p.hops.isEmpty

/-- Embeds `chunks_exact(2)` over the split tokens: consecutive
(port, channel) string pairs, any incomplete remainder dropped. -/
def chunkPairs : List (List Char) → List (List Char × List Char)
  | a :: b :: rest => (a, b) :: chunkPairs rest
  | _ => []

/-- Embeds the parsing loop of `TryFrom<Vec<&str>> for TracePath`: the
pairs arrive already reversed (`.rev().enumerate()`), each is validated as
port then channel and pushed in order; the first failure aborts with the
pair's position. -/
def parsePairs : Nat → List (List Char × List Char) → Except Ics20Error (List TracePrefix)
  | _, [] => .ok []
  | pos, (ps, cs) :: rest =>
    match PortId.fromStr ps with
    | none => .error (.invalidTracePortId pos)
    | some portId =>
      match ChannelId.fromStr cs with
      | none => .error (.invalidTraceChannelId pos)
      | some channelId =>
        (parsePairs (pos + 1) rest).map fun tl => ⟨portId, channelId⟩ :: tl

/-- Embeds `TryFrom<Vec<&str>> for TracePath`: an odd token count fails
with `invalid_trace_length` before any identifier validation; otherwise
the pairs are parsed right-to-left and pushed, so the rightmost string
pair becomes the oldest stored hop. -/
def TracePath.tryFrom (v : List (List Char)) : Except Ics20Error TracePath :=
  if v.length % 2 ≠ 0 then .error (.invalidTraceLength v.length)
  else (parsePairs 0 (chunkPairs v).reverse).map TracePath.mk

/-- Embeds `TracePath::from_str`: split on `'/'`; a single all-blank token
means the empty path; otherwise delegate to the vector parser. -/
def TracePath.fromStr (s : List Char) : Except Ics20Error TracePath :=
  let parts := splitSlash s
  let parts :=
    match parts with
    | [t] => if blankStr t then [] else [t]
    | other => other
  TracePath.tryFrom parts

/-- Embeds `TracePath`'s `Display`: hops are rendered in reverse storage
order (current hop leftmost) and joined with `"/"`. -/
def TracePath.toStr (p : TracePath) : List Char :=
  joinSlash (p.hops.reverse.map TracePrefix.toStr)

/-- Base denomination plus source-tracing path
(`denom.rs`, `struct PrefixedDenom`). -/
structure PrefixedDenom where
  tracePath : TracePath
  baseDenom : BaseDenom
deriving DecidableEq, Repr

/-- Embeds `PrefixedDenom::remove_trace_prefix`. -/
def PrefixedDenom.removeTracePrefix (d : PrefixedDenom) (pfx : TracePrefix) : PrefixedDenom :=
  { d with tracePath := d.tracePath.removePrefix pfx }

/-- Embeds `PrefixedDenom::add_trace_prefix`. -/
def PrefixedDenom.addTracePrefix (d : PrefixedDenom) (pfx : TracePrefix) : PrefixedDenom :=
  { d with tracePath := d.tracePath.addPrefix pfx }

/-- Embeds `PrefixedDenom::from_str`: split on `'/'`, pop the last token;
if it equals the whole input the trace is empty and the input is the base
denom, otherwise the last token is the base denom and the remaining tokens
are parsed as a trace path. -/
def PrefixedDenom.fromStr (s : List Char) : Except Ics20Error PrefixedDenom :=
  let parts := splitSlash s
  let lastPart := parts.getLast?.getD []
  if lastPart = s then
    (BaseDenom.fromStr s).map fun b => ⟨⟨[]⟩, b⟩
  else
    match BaseDenom.fromStr lastPart with
    | .error e => .error e
    | .ok b => (TracePath.tryFrom parts.dropLast).map fun tp => ⟨tp, b⟩

/-- Embeds `PrefixedDenom`'s `Display`: `trace + "/" + base` when the trace
is non-empty, else the base alone. -/
def PrefixedDenom.toStr (d : PrefixedDenom) : List Char :=
  if d.tracePath.hops.isEmpty then d.baseDenom.val
  else d.tracePath.toStr ++ '/' :: d.baseDenom.val

/-- Embeds `is_receiver_chain_source` (`denom.rs`): true iff the denom's
trace starts with the prefix built from the packet's source port and
channel. -/
def isReceiverChainSource (sourcePort : PortId) (sourceChannel : ChannelId)
    (d : PrefixedDenom) : Bool :=
  d.tracePath.startsWith (TracePrefix.new sourcePort sourceChannel)

/-- Embeds `is_sender_chain_source` (`denom.rs`): the negation of
`is_receiver_chain_source`. -/
def isSenderChainSource (sourcePort : PortId) (sourceChannel : ChannelId)
    (d : PrefixedDenom) : Bool :=
  !isReceiverChainSource sourcePort sourceChannel d

/-- The classification outcome used by the receive handler
(`applications/transfer`, `enum Source`). -/
inductive Source
  | sender
  | receiver
deriving DecidableEq, Repr

/-- Modelled from the spec: `PrefixedDenom::source_chain`, called by
`on_recv_packet.rs` but not among the staged files. Section 4.4: "the
receiving chain is the source iff the denom's trace starts_with(prefix);
otherwise the sending chain is the source", one outcome the negation of
the other; this agrees with `is_receiver_chain_source` in `denom.rs`. -/
def PrefixedDenom.sourceChain (d : PrefixedDenom) (pfx : TracePrefix) : Source :=
  if d.tracePath.startsWith pfx then .receiver else .sender

/-- The modulus of the unsigned 256-bit integer type `U256`. -/
def u256Size : Nat := 2 ^ 256

/-- Token transfer amount: an unsigned 256-bit integer
(`denom.rs`, `struct Amount(U256)`), embedded as the underlying natural
number. -/
structure Amount where
  val : Nat
deriving DecidableEq, Repr

/-- The largest unsigned 256-bit value (`U256::MAX`). -/
def Amount.maxValue : Amount := ⟨u256Size - 1⟩

/-- Embeds `Amount::checked_add`: `U256::checked_add` yields no result
when the mathematical sum does not fit in 256 bits, else the exact sum. -/
def Amount.checkedAdd (a b : Amount) : Option Amount :=
  if a.val + b.val < u256Size then some ⟨a.val + b.val⟩ else none

/-- Embeds `Amount::checked_sub`: `U256::checked_sub` yields no result
when the subtrahend exceeds the minuend, else the exact difference. -/
def Amount.checkedSub (a b : Amount) : Option Amount :=
  if b.val ≤ a.val then some ⟨a.val - b.val⟩ else none

/-- A token: denomination and amount (`denom.rs`, `struct Coin<D>`). -/
structure Coin (D : Type) where
  denom : D
  amount : Amount
deriving DecidableEq, Repr

/-- Ledger addresses and account identifiers, opaque to this module
(the spec excludes account/address internals); embedded as strings. -/
abbrev Address := List Char

/-- The content hash identifying a registered denom trace
(`PrefixedDenom::hashed`, external 256-bit hash); opaque here, embedded as
a string of bytes. -/
abbrev HashedDenom := List Char

/-- Modelled from the spec: the read-only collaborator surface the receive
handler consumes (`Ics20Context`; the trait lives outside the staged
files, its operations are the spec's section 6 external interfaces).
`parseAccount` models `data.receiver.try_into()`, `hashed` models the
external `PrefixedDenom::hashed` content hash, `getChannelEscrowAddress`
models the failable escrow-account lookup. -/
structure Ics20Context where
  isReceiveEnabled : Bool
  parseAccount : List Char → Option Address
  isBlockedAccount : Address → Bool
  getChannelEscrowAddress : PortId → ChannelId → Option Address
  getTransferAccount : Address
  hashed : PrefixedDenom → HashedDenom

/-- The ledger primitives a deferred action invokes when applied
(spec section 6: `transfer`, `mint`, `transfer_from_module`, plus the
denom-trace registration); recorded as an operation log. -/
inductive LedgerOp
  | setDenomTrace (denom : PrefixedDenom)
  | mintCoins (moduleAcct : Address) (coin : Coin PrefixedDenom)
  | sendCoinsFromModuleToAccount (moduleAcct : Address) (toAcct : Address)
      (coin : Coin PrefixedDenom)
  | sendCoins (fromAcct : Address) (toAcct : Address) (coin : Coin PrefixedDenom)
deriving DecidableEq, Repr

/-- The host state a deferred action mutates: the denom-trace registry
(hash to denom, as `DummyTransferModule::set_denom_trace` stores it) and
the log of ledger primitives invoked. -/
structure LedgerState where
  denomTraces : List (HashedDenom × PrefixedDenom)
  ops : List LedgerOp
deriving DecidableEq, Repr

/-- Embeds `has_denom_trace`: whether the hash is registered. -/
def LedgerState.hasDenomTrace (st : LedgerState) (h : HashedDenom) : Bool :=
  st.denomTraces.any fun e => e.1 == h

/-- The deferred ledger-mutation action returned by the receive handler.
The source returns a `Box<WriteFn>` closure; following the spec's design
note it is embedded as a tagged action value capturing what the closure
captures, with `applyWriteAction` embedding the closure bodies. -/
inductive WriteAction
  | unescrow (escrowAddress : Address) (receiver : Address)
      (amount : Coin PrefixedDenom)
  | mintVoucher (receiver : Address) (coin : Coin PrefixedDenom)
deriving DecidableEq, Repr

/-- Embeds the two closure bodies of `process_recv_packet` as a state
transition. Unescrow: `ctx.send_coins(&escrow_address, &receiver, &amount)`.
Mint voucher: recompute the hash; `if ctx.has_denom_trace(&hashed_denom)`
then `ctx.set_denom_trace(&coin.denom)` (the condition as written in the
source, line 69 of `on_recv_packet.rs`, with no negation); then
`mint_coins` into the transfer module account and
`send_coins_from_module_to_account` to the receiver. -/
def applyWriteAction (ctx : Ics20Context) (a : WriteAction) (st : LedgerState) :
    LedgerState :=
  match a with
  | .unescrow escrowAddress receiver amount =>
    { st with ops := st.ops ++ [.sendCoins escrowAddress receiver amount] }
  | .mintVoucher receiver coin =>
    let hashedDenom := ctx.hashed coin.denom
    let st1 :=
      if st.hasDenomTrace hashedDenom then
        { st with
          denomTraces := st.denomTraces ++ [(hashedDenom, coin.denom)]
          ops := st.ops ++ [.setDenomTrace coin.denom] }
      else st
    { st1 with
      ops := st1.ops ++
        [.mintCoins ctx.getTransferAccount coin,
         .sendCoinsFromModuleToAccount ctx.getTransferAccount receiver coin] }

/-- The packet metadata the receive handler reads
(`ics04_channel::packet::Packet`, the four routing fields used). -/
structure Packet where
  sourcePort : PortId
  sourceChannel : ChannelId
  destinationPort : PortId
  destinationChannel : ChannelId
deriving DecidableEq, Repr

/-- The transfer payload (`applications/transfer/packet.rs PacketData`):
sender, receiver in wire form, and the token. -/
structure PacketData where
  sender : List Char
  receiver : List Char
  token : Coin PrefixedDenom
deriving DecidableEq, Repr

/-- The trace-registration event (`events.rs DenomTraceEvent`): the
content hash and the full voucher denom. -/
structure DenomTraceEvent where
  traceHash : HashedDenom
  denom : PrefixedDenom
deriving DecidableEq, Repr

/-- What a successful `process_recv_packet` hands back: the events emitted
into the `ModuleOutputBuilder` and the deferred action (`Box<WriteFn>`). -/
structure RecvResult where
  events : List DenomTraceEvent
  writeFn : WriteAction
deriving DecidableEq, Repr

/-- Embeds `process_recv_packet` (`on_recv_packet.rs`): check receiving is
enabled; parse the receiver; classify the token's denom against the
packet's (source port, source channel); on `Receiver` strip that hop,
require the receiver unblocked, resolve the destination channel's escrow
address and defer an unescrow transfer; on `Sender` prepend the packet's
destination (port, channel), emit a `DenomTraceEvent` with the new denom's
hash, and defer the mint-and-forward action. -/
def processRecvPacket (ctx : Ics20Context) (packet : Packet) (data : PacketData) :
    Except Ics20Error RecvResult :=
  if !ctx.isReceiveEnabled then .error .receiveDisabled
  else
    match ctx.parseAccount data.receiver with
    | none => .error .parseAccountFailure
    | some receiver =>
      let pfx := TracePrefix.new packet.sourcePort packet.sourceChannel
      match data.token.denom.sourceChain pfx with
      | .receiver =>
        let coin : Coin PrefixedDenom :=
          { data.token with denom := data.token.denom.removeTracePrefix pfx }
        if ctx.isBlockedAccount receiver then
          .error (.unauthorisedReceive data.receiver)
        else
          match ctx.getChannelEscrowAddress packet.destinationPort
              packet.destinationChannel with
          | none => .error .channelEscrowLookupFailure
          | some escrowAddress =>
            .ok ⟨[], .unescrow escrowAddress receiver coin⟩
      | .sender =>
        let pfx2 := TracePrefix.new packet.destinationPort packet.destinationChannel
        let coin : Coin PrefixedDenom :=
          { data.token with denom := data.token.denom.addTracePrefix pfx2 }
        let ev : DenomTraceEvent := ⟨ctx.hashed coin.denom, coin.denom⟩
        .ok ⟨[ev], .mintVoucher receiver coin⟩

/-- Renders one (port string, channel string) pair as `"port/channel"`. -/
def pairStr (ab : List Char × List Char) : List Char :=
  ab.1 ++ '/' :: ab.2

/-- Test-input helper: the character list of a string literal. -/
def chars (s : String) : List Char := s.data

def portTransfer : PortId := ⟨chars "transfer"⟩

def chan0 : ChannelId := ⟨chars "channel-0"⟩

def chan1 : ChannelId := ⟨chars "channel-1"⟩

def chan7 : ChannelId := ⟨chars "channel-7"⟩

def chanToA : ChannelId := ⟨chars "channelToA"⟩

def pfx0 : TracePrefix := TracePrefix.new portTransfer chan0

def pfx1 : TracePrefix := TracePrefix.new portTransfer chan1

def sampleCtx : Ics20Context where
  isReceiveEnabled := true
  parseAccount := fun s => some s
  isBlockedAccount := fun _ => false
  getChannelEscrowAddress := fun _ _ => some (chars "escrowacct")
  getTransferAccount := chars "moduleacct"
  hashed := fun d => 'H' :: d.toStr

def uatomDenom : PrefixedDenom := ⟨⟨[]⟩, ⟨chars "uatom"⟩⟩

def escrowedDenom : PrefixedDenom :=
  ⟨⟨[TracePrefix.new portTransfer chanToA]⟩, ⟨chars "uatom"⟩⟩

def mintPacket : Packet := ⟨portTransfer, chan0, portTransfer, chan7⟩

def unescrowPacket : Packet := ⟨portTransfer, chanToA, portTransfer, chan1⟩

def mintData : PacketData :=
  ⟨chars "senderaddr", chars "receiveraddr", ⟨uatomDenom, ⟨500⟩⟩⟩

def unescrowData : PacketData :=
  ⟨chars "senderaddr", chars "receiveraddr", ⟨escrowedDenom, ⟨500⟩⟩⟩

def sampleMintRes : RecvResult :=
  ⟨[⟨sampleCtx.hashed ⟨⟨[TracePrefix.new portTransfer chan7]⟩, ⟨chars "uatom"⟩⟩,
     ⟨⟨[TracePrefix.new portTransfer chan7]⟩, ⟨chars "uatom"⟩⟩⟩],
   .mintVoucher (chars "receiveraddr")
     ⟨⟨⟨[TracePrefix.new portTransfer chan7]⟩, ⟨chars "uatom"⟩⟩, ⟨500⟩⟩⟩

def disabledCtx : Ics20Context := { sampleCtx with isReceiveEnabled := false }

def blockedCtx : Ics20Context := { sampleCtx with isBlockedAccount := fun _ => true }

def emptyLedger : LedgerState := ⟨[], []⟩

def voucherCoin : Coin PrefixedDenom := ⟨⟨⟨[pfx0]⟩, ⟨chars "uatom"⟩⟩, ⟨500⟩⟩

def registeredLedger : LedgerState :=
  ⟨[(sampleCtx.hashed voucherCoin.denom, voucherCoin.denom)], []⟩

theorem splitSlash_ne_nil (s : List Char) : splitSlash s ≠ [] := by
  cases s with
  | nil => simp [splitSlash]
  | cons a rest =>
    unfold splitSlash
    cases h : splitSlash rest with
    | nil => simp
    | cons t ts =>
      by_cases ha : a = '/' <;> simp [ha]

theorem joinSlash_cons (t : List Char) (L : List (List Char)) (h : L ≠ []) :
    joinSlash (t :: L) = t ++ '/' :: joinSlash L := by
  cases L with
  | nil => exact absurd rfl h
  | cons u us => rfl

theorem joinSlash_splitSlash (s : List Char) : joinSlash (splitSlash s) = s := by
  induction s with
  | nil => rfl
  | cons a rest ih =>
    cases h : splitSlash rest with
    | nil => exact absurd h (splitSlash_ne_nil rest)
    | cons t ts =>
      rw [h] at ih
      simp only [splitSlash, h]
      by_cases ha : a = '/'
      · subst ha
        rw [if_pos rfl]
        rw [joinSlash_cons _ _ (by simp)]
        simpa using ih
      · simp only [if_neg ha]
        cases ts with
        | nil => simpa [joinSlash] using ih
        | cons t2 ts2 =>
          rw [joinSlash_cons _ _ (by simp)]
          rw [joinSlash_cons _ _ (by simp)] at ih
          simpa using ih

theorem joinSlash_concat (v : List (List Char)) (x : List Char) (h : v ≠ []) :
    joinSlash (v ++ [x]) = joinSlash v ++ '/' :: x := by
  induction v with
  | nil => exact absurd rfl h
  | cons a v' ih =>
    cases v' with
    | nil => rfl
    | cons b v'' =>
      rw [List.cons_append, joinSlash_cons _ _ (by simp),
        joinSlash_cons _ _ (by simp), ih (by simp)]
      simp

theorem chunkPairs_join : ∀ (v : List (List Char)), v.length % 2 = 0 →
    joinSlash ((chunkPairs v).map pairStr) = joinSlash v
  | [] => fun _ => rfl
  | [a] => fun h => by simp at h
  | a :: b :: rest => fun h => by
    have hr : rest.length % 2 = 0 := by
      simp only [List.length_cons] at h
      omega
    have ih := chunkPairs_join rest hr
    cases rest with
    | nil => rfl
    | cons c rest2 =>
      cases rest2 with
      | nil => simp at hr
      | cons d rest3 =>
        show joinSlash (pairStr (a, b) :: (chunkPairs (c :: d :: rest3)).map pairStr) = _
        rw [joinSlash_cons _ _ (by simp [chunkPairs]), ih,
          joinSlash_cons a _ (by simp), joinSlash_cons b _ (by simp)]
        simp [pairStr]

theorem portId_fromStr_val {s : List Char} {p : PortId} (h : PortId.fromStr s = some p) :
    p.val = s := by
  unfold PortId.fromStr at h
  split at h
  · cases h; rfl
  · cases h

theorem channelId_fromStr_val {s : List Char} {c : ChannelId}
    (h : ChannelId.fromStr s = some c) : c.val = s := by
  unfold ChannelId.fromStr at h
  split at h
  · cases h; rfl
  · cases h

theorem parsePairs_map_toStr : ∀ (pos : Nat) (L : List (List Char × List Char))
    (hops : List TracePrefix), parsePairs pos L = .ok hops →
    hops.map TracePrefix.toStr = L.map pairStr
  | _, [], hops => fun h => by
    cases h; rfl
  | pos, (ps, cs) :: rest, hops => fun h => by
    unfold parsePairs at h
    cases hp : PortId.fromStr ps with
    | none => rw [hp] at h; cases h
    | some portId =>
      rw [hp] at h
      cases hc : ChannelId.fromStr cs with
      | none => rw [hc] at h; cases h
      | some channelId =>
        rw [hc] at h
        cases htl : parsePairs (pos + 1) rest with
        | error e => rw [htl] at h; cases h
        | ok tl =>
          rw [htl] at h
          cases h
          have ih := parsePairs_map_toStr (pos + 1) rest tl htl
          simp only [List.map_cons, ih, pairStr, TracePrefix.toStr,
            portId_fromStr_val hp, channelId_fromStr_val hc]

/-- C4: for every string on which `PrefixedDenom` parsing succeeds,
rendering the parsed denom reproduces the string exactly. -/
theorem prefixed_denom_roundtrip (s : List Char) (d : PrefixedDenom)
    (h : PrefixedDenom.fromStr s = .ok d) : PrefixedDenom.toStr d = s := by
  simp only [PrefixedDenom.fromStr] at h
  by_cases hlast : (splitSlash s).getLast?.getD [] = s
  · rw [if_pos hlast] at h
    unfold BaseDenom.fromStr at h
    split at h
    · cases h
    · cases h
      simp [PrefixedDenom.toStr]
  · rw [if_neg hlast] at h
    cases hbb : BaseDenom.fromStr ((splitSlash s).getLast?.getD []) with
    | error e => rw [hbb] at h; cases h
    | ok b =>
      rw [hbb] at h
      cases htp : TracePath.tryFrom (splitSlash s).dropLast with
      | error e => rw [htp] at h; cases h
      | ok tp =>
        rw [htp] at h
        cases h
        have hbval : b.val = (splitSlash s).getLast?.getD [] := by
          unfold BaseDenom.fromStr at hbb
          split at hbb
          · cases hbb
          · cases hbb; rfl
        unfold TracePath.tryFrom at htp
        split at htp
        · cases htp
        next hlen =>
          have hlen0 : (splitSlash s).dropLast.length % 2 = 0 := by omega
          cases hpp : parsePairs 0 (chunkPairs (splitSlash s).dropLast).reverse with
          | error e => rw [hpp] at htp; cases htp
          | ok hops =>
            rw [hpp] at htp
            cases htp
            have hmap := parsePairs_map_toStr 0 _ hops hpp
            have hne : splitSlash s ≠ [] := splitSlash_ne_nil s
            have hsplit : (splitSlash s).dropLast ++ [(splitSlash s).getLast?.getD []] =
                splitSlash s := by
              rw [List.getLast?_eq_getLast _ hne, Option.getD_some,
                List.dropLast_append_getLast hne]
            have hs : joinSlash (splitSlash s) = s := joinSlash_splitSlash s
            have hvne : (splitSlash s).dropLast ≠ [] := by
              intro hv
              apply hlast
              rw [hv, List.nil_append] at hsplit
              rw [← hsplit] at hs
              exact hs
            have hchne : chunkPairs (splitSlash s).dropLast ≠ [] := by
              cases hv : (splitSlash s).dropLast with
              | nil => exact absurd hv hvne
              | cons a rest =>
                cases rest with
                | nil => rw [hv] at hlen0; simp at hlen0
                | cons bb rest2 => simp [chunkPairs]
            have hhopsne : hops ≠ [] := by
              intro h0
              rw [h0] at hmap
              simp only [List.map_nil] at hmap
              have := hmap.symm
              rw [List.map_eq_nil_iff, List.reverse_eq_nil_iff] at this
              exact hchne this
            show PrefixedDenom.toStr ⟨⟨hops⟩, b⟩ = s
            unfold PrefixedDenom.toStr
            rw [if_neg (by simpa [List.isEmpty_iff] using hhopsne)]
            unfold TracePath.toStr
            show joinSlash (hops.reverse.map TracePrefix.toStr) ++ '/' :: b.val = s
            rw [List.map_reverse, hmap, List.map_reverse, List.reverse_reverse,
              chunkPairs_join _ hlen0, hbval, ← joinSlash_concat _ _ hvne, hsplit, hs]

theorem prefixed_denom_roundtrip_witness :
    PrefixedDenom.fromStr (chars "transfer/channel-0/transfer/channel-1/uatom") =
      .ok ⟨⟨[pfx1, pfx0]⟩, ⟨chars "uatom"⟩⟩ ∧
    PrefixedDenom.toStr ⟨⟨[pfx1, pfx0]⟩, ⟨chars "uatom"⟩⟩ =
      chars "transfer/channel-0/transfer/channel-1/uatom" :=
  ⟨by decide, prefixed_denom_roundtrip _ _ (by decide)⟩

/-- C6: an odd-length token list always fails with InvalidTraceLength,
whatever the tokens are. -/
theorem trace_path_odd_length_invalid (v : List (List Char))
    (h : v.length % 2 = 1) :
    TracePath.tryFrom v = .error (.invalidTraceLength v.length) := by
  unfold TracePath.tryFrom
  rw [if_pos (by omega)]

theorem trace_path_odd_length_invalid_witness :
    [[' ']].length % 2 = 1 ∧
    TracePath.tryFrom [[' ']] = .error (.invalidTraceLength 1) :=
  ⟨by decide, trace_path_odd_length_invalid [[' ']] (by decide)⟩

/-- C7 counterexample: parsing "transfer/channel-0/transfer" does not fail;
it succeeds with trace "transfer/channel-0" and base denom "transfer". -/
theorem prefixed_denom_even_nonbase_parses :
    PrefixedDenom.fromStr (chars "transfer/channel-0/transfer") =
      .ok ⟨⟨[pfx0]⟩, ⟨chars "transfer"⟩⟩ := by decide

/-- C7 amended: "transfer/uatom" (odd non-base segment count 1) fails with
InvalidTraceLength; "transfer/channel-0/transfer" has an even non-base
segment count (2) and parses successfully. -/
theorem prefixed_denom_invalid_trace_length_cases :
    PrefixedDenom.fromStr (chars "transfer/uatom") =
      .error (.invalidTraceLength 1) ∧
    PrefixedDenom.fromStr (chars "transfer/channel-0/transfer") =
      .ok ⟨⟨[pfx0]⟩, ⟨chars "transfer"⟩⟩ := by decide

/-- C8: checked Amount arithmetic is exact or empty, never wrapped. -/
theorem amount_checked_arithmetic :
    Amount.checkedAdd Amount.maxValue ⟨1⟩ = none ∧
    Amount.checkedSub ⟨0⟩ ⟨1⟩ = none ∧
    ∀ a b : Amount, a.val < u256Size → b.val < u256Size →
      (a.checkedAdd b = none ↔ u256Size ≤ a.val + b.val) ∧
      (∀ c, a.checkedAdd b = some c → c.val = a.val + b.val) ∧
      (a.checkedSub b = none ↔ a.val < b.val) ∧
      (∀ c, a.checkedSub b = some c → c.val + b.val = a.val) := by
  refine ⟨by decide, by decide, ?_⟩
  intro a b _ _
  refine ⟨?_, ?_, ?_, ?_⟩
  · unfold Amount.checkedAdd
    split <;> simp <;> omega
  · unfold Amount.checkedAdd
    split
    · intro c hc
      cases hc
      rfl
    · intro c hc
      cases hc
  · unfold Amount.checkedSub
    split <;> simp <;> omega
  · unfold Amount.checkedSub
    split
    next hle =>
      intro c hc
      cases hc
      show a.val - b.val + b.val = a.val
      omega
    · intro c hc
      cases hc

theorem amount_checked_arithmetic_witness :
    (Amount.mk 7).val < u256Size ∧ (Amount.mk 5).val < u256Size ∧
    ((Amount.checkedAdd ⟨7⟩ ⟨5⟩ = none ↔ u256Size ≤ (Amount.mk 7).val + (Amount.mk 5).val) ∧
     (∀ c, Amount.checkedAdd ⟨7⟩ ⟨5⟩ = some c → c.val = (Amount.mk 7).val + (Amount.mk 5).val) ∧
     (Amount.checkedSub ⟨7⟩ ⟨5⟩ = none ↔ (Amount.mk 7).val < (Amount.mk 5).val) ∧
     (∀ c, Amount.checkedSub ⟨7⟩ ⟨5⟩ = some c → c.val + (Amount.mk 5).val = (Amount.mk 7).val)) :=
  ⟨by decide, by decide,
    amount_checked_arithmetic.2.2 ⟨7⟩ ⟨5⟩ (by decide) (by decide)⟩

/-- C9: removing a prefix right after adding it restores the path, and
removing is a no-op when the current hop differs. -/
theorem trace_path_add_remove (p : TracePath) (q : TracePrefix) :
    (p.addPrefix q).removePrefix q = p ∧
    (p.hops.getLast? ≠ some q → p.removePrefix q = p) := by
  constructor
  · unfold TracePath.removePrefix TracePath.addPrefix TracePath.startsWith
    rw [List.getLast?_concat]
    simp
  · intro h
    unfold TracePath.removePrefix TracePath.startsWith
    cases hg : p.hops.getLast? with
    | none => simp
    | some r =>
      have hr : r ≠ q := fun e => h (by rw [hg, e])
      simp [hr]

theorem trace_path_add_remove_witness :
    (TracePath.mk [pfx1]).hops.getLast? ≠ some pfx0 ∧
    ((TracePath.mk [pfx1]).addPrefix pfx0).removePrefix pfx0 = ⟨[pfx1]⟩ ∧
    (TracePath.mk [pfx1]).removePrefix pfx0 = ⟨[pfx1]⟩ :=
  ⟨by decide, (trace_path_add_remove ⟨[pfx1]⟩ pfx0).1,
    (trace_path_add_remove ⟨[pfx1]⟩ pfx0).2 (by decide)⟩

theorem processRecvPacket_mint_eq (ctx : Ics20Context) (packet : Packet)
    (data : PacketData) (receiver : Address)
    (h1 : ctx.isReceiveEnabled = true)
    (h2 : ctx.parseAccount data.receiver = some receiver)
    (h3 : data.token.denom.tracePath.startsWith
      (TracePrefix.new packet.sourcePort packet.sourceChannel) = false) :
    processRecvPacket ctx packet data =
      .ok ⟨[⟨ctx.hashed (data.token.denom.addTracePrefix
              (TracePrefix.new packet.destinationPort packet.destinationChannel)),
            data.token.denom.addTracePrefix
              (TracePrefix.new packet.destinationPort packet.destinationChannel)⟩],
          .mintVoucher receiver
            ⟨data.token.denom.addTracePrefix
              (TracePrefix.new packet.destinationPort packet.destinationChannel),
             data.token.amount⟩⟩ := by
  simp [processRecvPacket, h1, h2, PrefixedDenom.sourceChain, h3]

theorem processRecvPacket_unescrow_eq (ctx : Ics20Context) (packet : Packet)
    (data : PacketData) (receiver escrowAddress : Address)
    (h1 : ctx.isReceiveEnabled = true)
    (h2 : ctx.parseAccount data.receiver = some receiver)
    (h3 : data.token.denom.tracePath.startsWith
      (TracePrefix.new packet.sourcePort packet.sourceChannel) = true)
    (h4 : ctx.isBlockedAccount receiver = false)
    (h5 : ctx.getChannelEscrowAddress packet.destinationPort
      packet.destinationChannel = some escrowAddress) :
    processRecvPacket ctx packet data =
      .ok ⟨[], .unescrow escrowAddress receiver
        ⟨data.token.denom.removeTracePrefix
          (TracePrefix.new packet.sourcePort packet.sourceChannel),
         data.token.amount⟩⟩ := by
  simp [processRecvPacket, h1, h2, PrefixedDenom.sourceChain, h3, h4, h5]

/-- C2: a denom whose current hop equals the packet's source (port,
channel) takes the unescrow branch. -/
theorem process_recv_packet_unescrow (ctx : Ics20Context) (packet : Packet)
    (data : PacketData) (receiver escrowAddress : Address)
    (h1 : ctx.isReceiveEnabled = true)
    (h2 : ctx.parseAccount data.receiver = some receiver)
    (h3 : data.token.denom.tracePath.hops.getLast? =
      some (TracePrefix.new packet.sourcePort packet.sourceChannel))
    (h4 : ctx.isBlockedAccount receiver = false)
    (h5 : ctx.getChannelEscrowAddress packet.destinationPort
      packet.destinationChannel = some escrowAddress) :
    processRecvPacket ctx packet data =
      .ok ⟨[], .unescrow escrowAddress receiver
        ⟨⟨⟨data.token.denom.tracePath.hops.dropLast⟩, data.token.denom.baseDenom⟩,
         data.token.amount⟩⟩ ∧
    (data.token.denom.tracePath.hops.length = 1 →
      PrefixedDenom.toStr
        ⟨⟨data.token.denom.tracePath.hops.dropLast⟩, data.token.denom.baseDenom⟩ =
        data.token.denom.baseDenom.val) := by
  have hsw : data.token.denom.tracePath.startsWith
      (TracePrefix.new packet.sourcePort packet.sourceChannel) = true := by
    unfold TracePath.startsWith
    rw [h3]
    simp
  constructor
  · have := processRecvPacket_unescrow_eq ctx packet data receiver escrowAddress
      h1 h2 hsw h4 h5
    rw [this]
    unfold PrefixedDenom.removeTracePrefix TracePath.removePrefix
    rw [if_pos hsw]
  · intro hlen
    have : data.token.denom.tracePath.hops.dropLast = [] := by
      cases hh : data.token.denom.tracePath.hops with
      | nil => rfl
      | cons x xs =>
        rw [hh] at hlen
        simp at hlen
        rw [hlen]
        rfl
    rw [this]
    rfl

theorem process_recv_packet_unescrow_witness :
    sampleCtx.isReceiveEnabled = true ∧
    sampleCtx.parseAccount unescrowData.receiver = some (chars "receiveraddr") ∧
    unescrowData.token.denom.tracePath.hops.getLast? =
      some (TracePrefix.new unescrowPacket.sourcePort unescrowPacket.sourceChannel) ∧
    sampleCtx.isBlockedAccount (chars "receiveraddr") = false ∧
    sampleCtx.getChannelEscrowAddress unescrowPacket.destinationPort
      unescrowPacket.destinationChannel = some (chars "escrowacct") ∧
    (processRecvPacket sampleCtx unescrowPacket unescrowData =
      .ok ⟨[], .unescrow (chars "escrowacct") (chars "receiveraddr")
        ⟨⟨⟨unescrowData.token.denom.tracePath.hops.dropLast⟩,
          unescrowData.token.denom.baseDenom⟩, unescrowData.token.amount⟩⟩ ∧
     (unescrowData.token.denom.tracePath.hops.length = 1 →
       PrefixedDenom.toStr ⟨⟨unescrowData.token.denom.tracePath.hops.dropLast⟩,
         unescrowData.token.denom.baseDenom⟩ =
         unescrowData.token.denom.baseDenom.val)) :=
  ⟨by decide, by decide, by decide, by decide, by decide,
    process_recv_packet_unescrow sampleCtx unescrowPacket unescrowData
      (chars "receiveraddr") (chars "escrowacct")
      (by decide) (by decide) (by decide) (by decide) (by decide)⟩

/-- C3: a denom whose trace does not start with the packet's source
takes the mint-voucher branch. -/
theorem process_recv_packet_mint_voucher (ctx : Ics20Context) (packet : Packet)
    (data : PacketData) (receiver : Address) (newDenom : PrefixedDenom)
    (voucher : Coin PrefixedDenom)
    (h1 : ctx.isReceiveEnabled = true)
    (h2 : ctx.parseAccount data.receiver = some receiver)
    (h3 : data.token.denom.tracePath.startsWith
      (TracePrefix.new packet.sourcePort packet.sourceChannel) = false)
    (hnd : newDenom = data.token.denom.addTracePrefix
      (TracePrefix.new packet.destinationPort packet.destinationChannel))
    (hv : voucher = ⟨newDenom, data.token.amount⟩) :
    processRecvPacket ctx packet data =
      .ok ⟨[⟨ctx.hashed newDenom, newDenom⟩], .mintVoucher receiver voucher⟩ ∧
    ∀ st : LedgerState,
      (applyWriteAction ctx (.mintVoucher receiver voucher) st).ops =
        st.ops ++
        (if st.hasDenomTrace (ctx.hashed newDenom) then
          [LedgerOp.setDenomTrace newDenom] else []) ++
        [LedgerOp.mintCoins ctx.getTransferAccount voucher,
         LedgerOp.sendCoinsFromModuleToAccount ctx.getTransferAccount receiver
           voucher] := by
  subst hnd hv
  constructor
  · exact processRecvPacket_mint_eq ctx packet data receiver h1 h2 h3
  · intro st
    simp only [applyWriteAction]
    split <;> simp

theorem process_recv_packet_mint_voucher_witness :
    sampleCtx.isReceiveEnabled = true ∧
    sampleCtx.parseAccount mintData.receiver = some (chars "receiveraddr") ∧
    mintData.token.denom.tracePath.startsWith
      (TracePrefix.new mintPacket.sourcePort mintPacket.sourceChannel) = false ∧
    (processRecvPacket sampleCtx mintPacket mintData =
      .ok ⟨[⟨sampleCtx.hashed ⟨⟨[TracePrefix.new portTransfer chan7]⟩, ⟨chars "uatom"⟩⟩,
            ⟨⟨[TracePrefix.new portTransfer chan7]⟩, ⟨chars "uatom"⟩⟩⟩],
          .mintVoucher (chars "receiveraddr")
            ⟨⟨⟨[TracePrefix.new portTransfer chan7]⟩, ⟨chars "uatom"⟩⟩, ⟨500⟩⟩⟩ ∧
     ∀ st : LedgerState,
      (applyWriteAction sampleCtx (.mintVoucher (chars "receiveraddr")
        ⟨⟨⟨[TracePrefix.new portTransfer chan7]⟩, ⟨chars "uatom"⟩⟩, ⟨500⟩⟩) st).ops =
        st.ops ++
        (if st.hasDenomTrace (sampleCtx.hashed
            ⟨⟨[TracePrefix.new portTransfer chan7]⟩, ⟨chars "uatom"⟩⟩) then
          [LedgerOp.setDenomTrace ⟨⟨[TracePrefix.new portTransfer chan7]⟩, ⟨chars "uatom"⟩⟩]
         else []) ++
        [LedgerOp.mintCoins sampleCtx.getTransferAccount
          ⟨⟨⟨[TracePrefix.new portTransfer chan7]⟩, ⟨chars "uatom"⟩⟩, ⟨500⟩⟩,
         LedgerOp.sendCoinsFromModuleToAccount sampleCtx.getTransferAccount
          (chars "receiveraddr")
          ⟨⟨⟨[TracePrefix.new portTransfer chan7]⟩, ⟨chars "uatom"⟩⟩, ⟨500⟩⟩]) :=
  ⟨by decide, by decide, by decide,
    process_recv_packet_mint_voucher sampleCtx mintPacket mintData
      (chars "receiveraddr") ⟨⟨[TracePrefix.new portTransfer chan7]⟩, ⟨chars "uatom"⟩⟩
      ⟨⟨⟨[TracePrefix.new portTransfer chan7]⟩, ⟨chars "uatom"⟩⟩, ⟨500⟩⟩
      (by decide) (by decide) (by decide) (by decide) (by decide)⟩

/-- C10: an empty trace path is never classified receiver-is-source, and
any successful receive of such a token is a mint-voucher action. -/
theorem empty_trace_never_receiver_source (d : PrefixedDenom)
    (hd : d.tracePath.hops = []) :
    (∀ (sourcePort : PortId) (sourceChannel : ChannelId),
      isReceiverChainSource sourcePort sourceChannel d = false) ∧
    (∀ (ctx : Ics20Context) (packet : Packet) (data : PacketData)
      (res : RecvResult),
      data.token.denom = d →
      processRecvPacket ctx packet data = .ok res →
      ∃ receiver voucher, res.writeFn = .mintVoucher receiver voucher) := by
  have hsw : ∀ pfx : TracePrefix, d.tracePath.startsWith pfx = false := by
    intro pfx
    unfold TracePath.startsWith
    rw [hd]
    rfl
  constructor
  · intro sourcePort sourceChannel
    exact hsw _
  · intro ctx packet data res hdata hok
    cases hen : ctx.isReceiveEnabled with
    | false => simp [processRecvPacket, hen] at hok
    | true =>
      cases hpa : ctx.parseAccount data.receiver with
      | none => simp [processRecvPacket, hen, hpa] at hok
      | some receiver =>
        have heq := processRecvPacket_mint_eq ctx packet data receiver hen hpa
          (by rw [hdata]; exact hsw _)
        rw [heq] at hok
        cases hok
        exact ⟨receiver, _, rfl⟩

theorem empty_trace_never_receiver_source_witness :
    uatomDenom.tracePath.hops = [] ∧
    isReceiverChainSource portTransfer chan0 uatomDenom = false ∧
    ∃ receiver voucher, sampleMintRes.writeFn = .mintVoucher receiver voucher :=
  ⟨rfl, (empty_trace_never_receiver_source uatomDenom rfl).1 portTransfer chan0,
    (empty_trace_never_receiver_source uatomDenom rfl).2 sampleCtx mintPacket
      mintData sampleMintRes rfl (by decide)⟩

/-- C5: the receive handler returns each typed error exactly under its
precondition failure, and every error is one of the four kinds; an error
result carries no action and no events. -/
theorem process_recv_packet_error_aborts (ctx : Ics20Context) (packet : Packet)
    (data : PacketData) :
    (processRecvPacket ctx packet data = .error .receiveDisabled ↔
      ctx.isReceiveEnabled = false) ∧
    (processRecvPacket ctx packet data = .error .parseAccountFailure ↔
      ctx.isReceiveEnabled = true ∧ ctx.parseAccount data.receiver = none) ∧
    (processRecvPacket ctx packet data =
        .error (.unauthorisedReceive data.receiver) ↔
      ctx.isReceiveEnabled = true ∧
      ∃ receiver, ctx.parseAccount data.receiver = some receiver ∧
        data.token.denom.tracePath.startsWith
          (TracePrefix.new packet.sourcePort packet.sourceChannel) = true ∧
        ctx.isBlockedAccount receiver = true) ∧
    (processRecvPacket ctx packet data = .error .channelEscrowLookupFailure ↔
      ctx.isReceiveEnabled = true ∧
      ∃ receiver, ctx.parseAccount data.receiver = some receiver ∧
        data.token.denom.tracePath.startsWith
          (TracePrefix.new packet.sourcePort packet.sourceChannel) = true ∧
        ctx.isBlockedAccount receiver = false ∧
        ctx.getChannelEscrowAddress packet.destinationPort
          packet.destinationChannel = none) ∧
    (∀ e, processRecvPacket ctx packet data = .error e →
      e = .receiveDisabled ∨ e = .parseAccountFailure ∨
      e = .unauthorisedReceive data.receiver ∨
      e = .channelEscrowLookupFailure) := by
  cases hen : ctx.isReceiveEnabled with
  | false =>
    simp [processRecvPacket, hen]
  | true =>
    cases hpa : ctx.parseAccount data.receiver with
    | none => simp [processRecvPacket, hen, hpa]
    | some receiver =>
      cases hsw : data.token.denom.tracePath.startsWith
          (TracePrefix.new packet.sourcePort packet.sourceChannel) with
      | false =>
        simp [processRecvPacket, hen, hpa, PrefixedDenom.sourceChain, hsw]
      | true =>
        cases hbl : ctx.isBlockedAccount receiver with
        | true =>
          simp [processRecvPacket, hen, hpa, PrefixedDenom.sourceChain, hsw, hbl]
        | false =>
          cases hesc : ctx.getChannelEscrowAddress packet.destinationPort
              packet.destinationChannel with
          | none =>
            simp [processRecvPacket, hen, hpa, PrefixedDenom.sourceChain, hsw,
              hbl, hesc]
          | some escrowAddress =>
            simp [processRecvPacket, hen, hpa, PrefixedDenom.sourceChain, hsw,
              hbl, hesc]

theorem process_recv_packet_error_aborts_witness :
    processRecvPacket disabledCtx unescrowPacket unescrowData =
      .error .receiveDisabled ∧
    processRecvPacket blockedCtx unescrowPacket unescrowData =
      .error (.unauthorisedReceive (chars "receiveraddr")) :=
  ⟨(process_recv_packet_error_aborts disabledCtx unescrowPacket
      unescrowData).1.mpr (by decide),
   (process_recv_packet_error_aborts blockedCtx unescrowPacket
      unescrowData).2.2.1.mpr
     ⟨by decide, chars "receiveraddr", by decide, by decide, by decide⟩⟩

/-- C1 (the code evaluated at the failing input): the deferred mint action
as written registers the hash-to-denom mapping only when the hash is
ALREADY registered. On a ledger where the voucher denom's hash is not
registered the applied action performs no setDenomTrace operation and
leaves the registry empty, and on a ledger where the hash is registered it
registers the mapping again - the opposite of the claimed condition. -/
theorem mint_action_registration_inverted :
    emptyLedger.hasDenomTrace (sampleCtx.hashed voucherCoin.denom) = false ∧
    applyWriteAction sampleCtx
        (.mintVoucher (chars "receiveraddr") voucherCoin) emptyLedger =
      ⟨[], [.mintCoins (chars "moduleacct") voucherCoin,
            .sendCoinsFromModuleToAccount (chars "moduleacct")
              (chars "receiveraddr") voucherCoin]⟩ ∧
    registeredLedger.hasDenomTrace (sampleCtx.hashed voucherCoin.denom) = true ∧
    applyWriteAction sampleCtx
        (.mintVoucher (chars "receiveraddr") voucherCoin) registeredLedger =
      ⟨[(sampleCtx.hashed voucherCoin.denom, voucherCoin.denom),
        (sampleCtx.hashed voucherCoin.denom, voucherCoin.denom)],
       [.setDenomTrace voucherCoin.denom,
        .mintCoins (chars "moduleacct") voucherCoin,
        .sendCoinsFromModuleToAccount (chars "moduleacct")
          (chars "receiveraddr") voucherCoin]⟩ := by
  decide
